import Mathlib

/-!
Verification development for the book-smith-ai client
(`src/book_smith_ai/module.py`).

The Python module is embedded shallowly:

* text is modeled as `List Char` (wrapped into `String` at the interfaces);
* `re.sub(r"<think>.*?</think>\s*", "", text, flags=re.DOTALL)` is modeled
  by `subThink` (a left-to-right scan replacing every non-overlapping
  match, with a lazy body and a greedy trailing-whitespace tail);
* `str.replace(old, "")` is modeled by `pyReplaceDel` (all occurrences,
  left to right, non-overlapping);
* `json.loads` is modeled by `pyJsonLoads`, a recursive-descent parser
  following the CPython `json` decoder (JSON whitespace, `null`, `true`,
  `false`, `NaN`, `Infinity`, `-Infinity`, strings with escapes and a
  control-character check, numbers via the decoder regex, objects with
  last-wins duplicate keys, and an end-of-input check);
* exceptions are the inductive `PyErr`; fallible steps return `Except`;
* the single HTTP POST of `send_api_payload` is a parameter: the response
  the network would deliver is an input, and the number of network calls
  performed is returned explicitly.

Recursive text scanners use explicit fuel so that every definition is a
plain structural recursion the kernel can evaluate; fuel is always set to
a bound that the accompanying lemmas show is sufficient.
-/

/-- Python whitespace class `\s` of a str pattern, restricted to its
ASCII members: space, tab, newline, carriage return, vertical tab, form
feed, and the separator controls `\x1c` to `\x1f`, which
`Py_UNICODE_ISSPACE` also counts as whitespace. All inputs in this
development are ASCII, so the remaining members of the Python class
(`\x85` and the Unicode spaces) are not modeled. -/
def pyIsSpace (c : Char) : Bool :=
  c == ' ' || c == '\t' || c == '\n' || c == '\r' || c == '\x0b' || c == '\x0c' ||
    c == '\x1c' || c == '\x1d' || c == '\x1e' || c == '\x1f'

/-- Literal start-of-reasoning marker `<think>` of the regex at
module.py:131, spelled as an explicit character list. -/
def thinkOpen : List Char := ['<', 't', 'h', 'i', 'n', 'k', '>']

/-- Literal end-of-reasoning marker `</think>` of the regex at
module.py:131, spelled as an explicit character list. -/
def thinkClose : List Char := ['<', '/', 't', 'h', 'i', 'n', 'k', '>']

/-- Decides whether `pat` occurs as a contiguous subsequence of `l`. -/
def containsSeq (pat : List Char) : List Char → Bool
  | [] => pat.isEmpty
  | c :: rest => pat.isPrefixOf (c :: rest) || containsSeq pat rest

/-- Searches `l` for the first occurrence of `</think>` and returns the
text after it; models the lazy `.*?</think>` part of the regex, which
stops at the earliest closing marker. -/
def findCloseSuffix : List Char → Option (List Char)
  | [] => none
  | c :: rest =>
    if thinkClose.isPrefixOf (c :: rest) then some ((c :: rest).drop 8)
    else findCloseSuffix rest

/-- Fueled worker for `subThink`: the left-to-right scan of
`re.sub(r"<think>.*?</think>\s*", "", text, flags=re.DOTALL)`.
At each position, if a `<think>` marker with a later `</think>` marker
starts there, the whole block plus the greedy run of trailing whitespace
is dropped and scanning resumes after it; otherwise the character is kept
and scanning moves one position right. -/
def subThinkF : Nat → List Char → List Char
  | _, [] => []
  | 0, l => l
  | fuel + 1, c :: rest =>
    if thinkOpen.isPrefixOf (c :: rest) then
      match findCloseSuffix ((c :: rest).drop 7) with
      | some suffix => subThinkF fuel (suffix.dropWhile pyIsSpace)
      | none => c :: subThinkF fuel rest
    else c :: subThinkF fuel rest

/-- Model of the `re.sub` call at module.py:129-135. -/
def subThink (l : List Char) : List Char := subThinkF l.length l

/-- The Response Sanitizer: the `debug` conditional of
`send_api_payload` (module.py:118-135). With `keepReasoning = true` the
text is returned unchanged; otherwise the reasoning blocks are removed
by `subThink`. -/
def sanitize (keepReasoning : Bool) (s : String) : String :=
  if keepReasoning then s else String.mk (subThink s.toList)

/-- First argument `"```json\n"` of the first `str.replace` at
module.py:211, spelled as an explicit character list. -/
def mdFenceOpen : List Char := ['`', '`', '`', 'j', 's', 'o', 'n', '\n']

/-- First argument `"\n```"` of the second `str.replace` at
module.py:211, spelled as an explicit character list. -/
def mdFenceClose : List Char := ['\n', '`', '`', '`']

/-- Fueled worker modeling Python `str.replace(pat, "")`: removes every
non-overlapping occurrence of `pat`, scanning left to right. -/
def replaceAllF (pat : List Char) : Nat → List Char → List Char
  | _, [] => []
  | 0, l => l
  | fuel + 1, c :: rest =>
    if pat.isPrefixOf (c :: rest) then replaceAllF pat fuel ((c :: rest).drop pat.length)
    else c :: replaceAllF pat fuel rest

/-- Python `l.replace(pat, "")` for a non-empty pattern. -/
def pyReplaceDel (pat l : List Char) : List Char := replaceAllF pat l.length l

/-- The fence-stripping expression
`response.replace("```json\n", "").replace("\n```", "")`
at module.py:210-211. -/
def stripMarkdown (l : List Char) : List Char :=
  pyReplaceDel mdFenceClose (pyReplaceDel mdFenceOpen l)

/-- Parsed JSON values as produced by `json.loads`. Non-integral numbers
and the non-standard constants accepted by CPython (`NaN`, `Infinity`,
`-Infinity`) become Python floats; they are kept as their source lexeme
(constructor `fnum`) because no claim depends on float arithmetic. -/
inductive Json where
  | null : Json
  | bool (b : Bool) : Json
  | num (n : Int) : Json
  | fnum (lexeme : List Char) : Json
  | str (s : String) : Json
  | arr (items : List Json) : Json
  | obj (members : List (String × Json)) : Json

/-- JSON whitespace, the `_ws` class of the CPython decoder. -/
def jsonWsChar (c : Char) : Bool :=
  c == ' ' || c == '\t' || c == '\n' || c == '\r'

/-- Skips JSON whitespace. -/
def skipWs (l : List Char) : List Char := l.dropWhile jsonWsChar

/-- Value of one hexadecimal digit. -/
def hexVal (c : Char) : Option Nat :=
  if '0' ≤ c ∧ c ≤ '9' then some (c.toNat - 48)
  else if 'a' ≤ c ∧ c ≤ 'f' then some (c.toNat - 87)
  else if 'A' ≤ c ∧ c ≤ 'F' then some (c.toNat - 55)
  else none

/-- Reads exactly four hexadecimal digits, as in `\uXXXX` escapes. -/
def parseHex4 (l : List Char) : Option (Nat × List Char) :=
  match l with
  | a :: b :: c :: d :: rest =>
    match hexVal a, hexVal b, hexVal c, hexVal d with
    | some x, some y, some z, some w => some (((x * 16 + y) * 16 + z) * 16 + w, rest)
    | _, _, _, _ => none
  | _ => none

/-- Body of a JSON string after the opening quote, following the CPython
`py_scanstring` routine: plain characters below 0x20 are rejected
(strict mode), the eight simple escapes are decoded, `\uXXXX` escapes
are decoded with surrogate-pair combination. A lone surrogate, which
CPython keeps in the Python str, is mapped through `Char.ofNat` because
Lean characters are Unicode scalars; no claim exercises that case. -/
def parseStringRest : Nat → List Char → List Char → Option (String × List Char)
  | 0, _, _ => none
  | fuel + 1, l, acc =>
    match l with
    | [] => none
    | '"' :: rest => some (String.mk acc.reverse, rest)
    | '\\' :: esc =>
      match esc with
      | '"' :: r => parseStringRest fuel r ('"' :: acc)
      | '\\' :: r => parseStringRest fuel r ('\\' :: acc)
      | '/' :: r => parseStringRest fuel r ('/' :: acc)
      | 'b' :: r => parseStringRest fuel r ('\x08' :: acc)
      | 'f' :: r => parseStringRest fuel r ('\x0c' :: acc)
      | 'n' :: r => parseStringRest fuel r ('\n' :: acc)
      | 'r' :: r => parseStringRest fuel r ('\r' :: acc)
      | 't' :: r => parseStringRest fuel r ('\t' :: acc)
      | 'u' :: r =>
        match parseHex4 r with
        | none => none
        | some (n, r2) =>
          if 0xD800 ≤ n ∧ n ≤ 0xDBFF then
            match r2 with
            | '\\' :: 'u' :: r3 =>
              match parseHex4 r3 with
              | none => parseStringRest fuel r2 (Char.ofNat n :: acc)
              | some (n2, r4) =>
                if 0xDC00 ≤ n2 ∧ n2 ≤ 0xDFFF then
                  parseStringRest fuel r4
                    (Char.ofNat (0x10000 + (n - 0xD800) * 0x400 + (n2 - 0xDC00)) :: acc)
                else parseStringRest fuel r2 (Char.ofNat n :: acc)
            | _ => parseStringRest fuel r2 (Char.ofNat n :: acc)
          else parseStringRest fuel r2 (Char.ofNat n :: acc)
      | _ => none
    | c :: rest =>
      if c.toNat < 0x20 then none else parseStringRest fuel rest (c :: acc)

/-- Digit run to a natural number. -/
def digitsToNat (ds : List Char) : Nat :=
  ds.foldl (fun a c => a * 10 + (c.toNat - 48)) 0

/-- Exponent part `[eE][-+]?\d+` of the number regex; returns the
consumed lexeme and the remainder, consuming nothing if the group does
not match. -/
def parseExpPart (l : List Char) : List Char × List Char :=
  match l with
  | e :: r =>
    if e == 'e' || e == 'E' then
      let sgnr : List Char × List Char :=
        match r with
        | '+' :: rr => (['+'], rr)
        | '-' :: rr => (['-'], rr)
        | _ => ([], r)
      let ds := sgnr.2.takeWhile Char.isDigit
      if ds.isEmpty then ([], l) else (e :: (sgnr.1 ++ ds), sgnr.2.drop ds.length)
    else ([], l)
  | [] => ([], l)

/-- Fraction and exponent tail of a number whose sign and integer part
have been consumed; integers become Python ints (`Json.num`), anything
with a fraction or exponent becomes a float kept as its lexeme. -/
def parseNumTail (neg : Bool) (intDigits : List Char) (l : List Char) : Json × List Char :=
  let fracr : List Char × List Char :=
    match l with
    | '.' :: r =>
      let fd := r.takeWhile Char.isDigit
      if fd.isEmpty then ([], l) else (fd, r.drop fd.length)
    | _ => ([], l)
  let expr : List Char × List Char := parseExpPart fracr.2
  if fracr.1.isEmpty ∧ expr.1.isEmpty then
    (Json.num (if neg then -(Int.ofNat (digitsToNat intDigits)) else Int.ofNat (digitsToNat intDigits)),
      expr.2)
  else
    (Json.fnum ((if neg then ['-'] else []) ++ intDigits ++
      (if fracr.1.isEmpty then [] else '.' :: fracr.1) ++ expr.1), expr.2)

/-- Number per the CPython decoder regex
`(-?(?:0|[1-9]\d*))(\.\d+)?([eE][-+]?\d+)?`: a leading zero is not
followed by further integer digits, and a bare minus fails. -/
def parseNumber (l : List Char) : Option (Json × List Char) :=
  let negl : Bool × List Char :=
    match l with
    | '-' :: r => (true, r)
    | _ => (false, l)
  match negl.2 with
  | [] => none
  | c :: r =>
    if c == '0' then some (parseNumTail negl.1 ['0'] r)
    else if c.isDigit then
      let ds := r.takeWhile Char.isDigit
      some (parseNumTail negl.1 (c :: ds) (r.drop ds.length))
    else none

/-- Inserts a member into an object under Python dict semantics: the
first occurrence of the key keeps its position and its value is
overwritten, a fresh key is appended. -/
def assocUpsert : List (String × Json) → String → Json → List (String × Json)
  | [], k, v => [(k, v)]
  | (k0, v0) :: rest, k, v =>
    if k0 == k then (k0, v) :: rest else (k0, v0) :: assocUpsert rest k v

mutual

/-- One JSON value, mirroring the CPython scanner dispatch. -/
def parseValue : Nat → List Char → Option (Json × List Char)
  | 0, _ => none
  | fuel + 1, l =>
    match l with
    | '"' :: r => (parseStringRest (r.length + 1) r []).map (fun p => (Json.str p.1, p.2))
    | '\x7b' :: r =>
      match skipWs r with
      | '\x7d' :: r2 => some (Json.obj [], r2)
      | r1 => parseMembers fuel r1 []
    | '[' :: r =>
      match skipWs r with
      | ']' :: r2 => some (Json.arr [], r2)
      | r1 => parseItems fuel r1 []
    | 'n' :: 'u' :: 'l' :: 'l' :: r => some (Json.null, r)
    | 't' :: 'r' :: 'u' :: 'e' :: r => some (Json.bool true, r)
    | 'f' :: 'a' :: 'l' :: 's' :: 'e' :: r => some (Json.bool false, r)
    | 'N' :: 'a' :: 'N' :: r => some (Json.fnum (String.toList "NaN"), r)
    | 'I' :: 'n' :: 'f' :: 'i' :: 'n' :: 'i' :: 't' :: 'y' :: r =>
      some (Json.fnum (String.toList "Infinity"), r)
    | '-' :: 'I' :: 'n' :: 'f' :: 'i' :: 'n' :: 'i' :: 't' :: 'y' :: r =>
      some (Json.fnum (String.toList "-Infinity"), r)
    | c :: r => if c == '-' || c.isDigit then parseNumber (c :: r) else none
    | [] => none

/-- Array elements after the first non-`]` position. -/
def parseItems : Nat → List Char → List Json → Option (Json × List Char)
  | 0, _, _ => none
  | fuel + 1, l, acc =>
    match parseValue fuel l with
    | none => none
    | some (v, r) =>
      match skipWs r with
      | ']' :: r2 => some (Json.arr (v :: acc).reverse, r2)
      | ',' :: r2 => parseItems fuel (skipWs r2) (v :: acc)
      | _ => none

/-- Object members after the first non-`}` position. -/
def parseMembers : Nat → List Char → List (String × Json) → Option (Json × List Char)
  | 0, _, _ => none
  | fuel + 1, l, acc =>
    match l with
    | '"' :: r =>
      match parseStringRest (r.length + 1) r [] with
      | none => none
      | some (k, r1) =>
        match skipWs r1 with
        | ':' :: r2 =>
          match parseValue fuel (skipWs r2) with
          | none => none
          | some (v, r3) =>
            match skipWs r3 with
            | '\x7d' :: r4 => some (Json.obj (assocUpsert acc k v), r4)
            | ',' :: r4 => parseMembers fuel (skipWs r4) (assocUpsert acc k v)
            | _ => none
        | _ => none
    | _ => none

end

/-- Model of Python `json.loads`: leading whitespace, one value, trailing
whitespace, and nothing else (the "Extra data" check of
`JSONDecoder.decode`). Returns `none` exactly when `json.loads` raises
`json.JSONDecodeError`. -/
def pyJsonLoads (l : List Char) : Option Json :=
  let s := skipWs l
  match parseValue (s.length * 2 + 2) s with
  | none => none
  | some (v, r) => if (skipWs r).isEmpty then some v else none

/-- Python exceptions that the embedded code paths can raise, plus the
two error classes that the specification names but the source never
defines. `valueError` is the `ValueError` of `__init__` (module.py:35),
`httpError` is the `requests.exceptions.HTTPError` of
`raise_for_status()` (module.py:115), which carries the response and
hence its status code and body, `jsonDecodeError` is
`json.JSONDecodeError` with its `doc` attribute (the text handed to the
parser), and `keyError`, `indexError`, `typeError` are the builtin
lookup errors of the chained subscripts at module.py:127/133.
`malformedResponseError` and `schemaValidationError` formalize the error
taxonomy of the specification so that claims about it can be stated; no
definition in this file ever constructs them, because the source has no
such classes. -/
inductive PyErr where
  | valueError (msg : String)
  | httpError (status : Nat) (body : String)
  | jsonDecodeError (doc : String)
  | keyError (key : String)
  | indexError
  | typeError
  | malformedResponseError (rawBody : String)
  | schemaValidationError (missingKeys : List String) (raw : String)
deriving DecidableEq

/-- The single HTTP response delivered by `requests.post`. -/
structure HttpResponse where
  status : Nat
  body : String

/-- Model of `response.raise_for_status()` (module.py:115): the requests
library raises `HTTPError` exactly for client errors (4xx) and server
errors (5xx). -/
def raiseForStatus (r : HttpResponse) : Except PyErr Unit :=
  if 400 ≤ r.status ∧ r.status < 600 then Except.error (PyErr.httpError r.status r.body)
  else Except.ok ()

/-- Model of `response.json()` (module.py:117). -/
def responseJson (r : HttpResponse) : Except PyErr Json :=
  match pyJsonLoads r.body.toList with
  | some v => Except.ok v
  | none => Except.error (PyErr.jsonDecodeError r.body)

/-- First binding for a key in an association list; models attribute or
dict lookup on string keys. -/
def assocFind {α : Type} (k : String) : List (String × α) → Option α
  | [] => none
  | (k0, v) :: rest => if k0 == k then some v else assocFind k rest

/-- Python subscript `v[k]` with a string key: succeeds only on dicts
holding the key; a dict without the key raises `KeyError`, and any
non-dict raises `TypeError`. -/
def pyIndexStr (v : Json) (k : String) : Except PyErr Json :=
  match v with
  | Json.obj kvs =>
    match assocFind k kvs with
    | some x => Except.ok x
    | none => Except.error (PyErr.keyError k)
  | _ => Except.error PyErr.typeError

/-- Python subscript `v[i]` with an integer index: on a list, out of
range raises `IndexError`; on a dict the integer key is absent (JSON
object keys are strings) so `KeyError` is raised; on a string the
one-character string is returned; anything else raises `TypeError`. -/
def pyIndexNat (v : Json) (i : Nat) : Except PyErr Json :=
  match v with
  | Json.arr xs =>
    match xs.get? i with
    | some x => Except.ok x
    | none => Except.error PyErr.indexError
  | Json.obj _ => Except.error (PyErr.keyError (toString i))
  | Json.str s =>
    match s.toList.get? i with
    | some c => Except.ok (Json.str (String.mk [c]))
    | none => Except.error PyErr.indexError
  | _ => Except.error PyErr.typeError

/-- The chained subscript `result["choices"][0]["message"]["content"]`
(module.py:127/133). -/
def extractContent (result : Json) : Except PyErr Json :=
  match pyIndexStr result "choices" with
  | Except.error e => Except.error e
  | Except.ok choices =>
    match pyIndexNat choices 0 with
    | Except.error e => Except.error e
    | Except.ok first =>
      match pyIndexStr first "message" with
      | Except.error e => Except.error e
      | Except.ok msg => pyIndexStr msg "content"

/-- Recognizes the builtin Python lookup errors (`KeyError`,
`IndexError`, `TypeError`). -/
def isLookupError (e : PyErr) : Bool :=
  match e with
  | PyErr.keyError _ => true
  | PyErr.indexError => true
  | PyErr.typeError => true
  | _ => false

/-- Recognizes the `MalformedResponseError` class of the specification
taxonomy. -/
def isMalformedResponseError (e : PyErr) : Bool :=
  match e with
  | PyErr.malformedResponseError _ => true
  | _ => false

/-- Recognizes the `SchemaValidationError` class of the specification
taxonomy. -/
def isSchemaValidationError (e : PyErr) : Bool :=
  match e with
  | PyErr.schemaValidationError _ _ => true
  | _ => false

/-- Model of `send_api_payload` (module.py:90-135) given the response
the single `requests.post` call delivers: check the status, parse the
body, extract the message content, and unless `debug` is set remove the
reasoning block from it. With `debug = false` a non-string content would
make `re.sub` raise `TypeError`; with `debug = true` the content is
returned as is. -/
def sendApiPayload (debug : Bool) (r : HttpResponse) : Except PyErr Json :=
  match raiseForStatus r with
  | Except.error e => Except.error e
  | Except.ok _ =>
    match responseJson r with
    | Except.error e => Except.error e
    | Except.ok result =>
      match extractContent result with
      | Except.error e => Except.error e
      | Except.ok content =>
        if debug then Except.ok content
        else
          match content with
          | Json.str s => Except.ok (Json.str (String.mk (subThink s.toList)))
          | _ => Except.error PyErr.typeError

/-- Result of `_dict_to_namespace` (module.py:53-88): dicts become
dot-accessible namespaces, lists stay lists, and every other value is
kept as the primitive it was. -/
inductive PyVal where
  | ns (fields : List (String × PyVal))
  | listv (items : List PyVal)
  | prim (value : Json)

mutual

/-- Model of the static method `_dict_to_namespace` (module.py:53-88). -/
def dictToNamespace : Json → PyVal
  | Json.obj kvs => PyVal.ns (dtnFields kvs)
  | Json.arr xs => PyVal.listv (dtnItems xs)
  | v => PyVal.prim v

/-- Value-wise conversion of the members of a dict. -/
def dtnFields : List (String × Json) → List (String × PyVal)
  | [] => []
  | (k, v) :: rest => (k, dictToNamespace v) :: dtnFields rest

/-- Element-wise conversion of a list. -/
def dtnItems : List Json → List PyVal
  | [] => []
  | v :: rest => dictToNamespace v :: dtnItems rest

end

/-- Python attribute access `getattr(ns, k)` on a converted value:
defined only on namespaces. -/
def nsAttr (v : PyVal) (k : String) : Option PyVal :=
  match v with
  | PyVal.ns fields => assocFind k fields
  | _ => none

/-- The client state relevant to the claims: the construction-time
configuration of `__init__` (module.py:31-50) and the `book_spec`
attribute cached by `generate_book_spec` (module.py:215), absent until
the first successful call. -/
structure Client where
  apiKey : String
  baseUrl : String
  authHeader : String
  bookIdea : String
  dryRun : Bool
  bookSpec : Option PyVal

/-- Model of `PerplexityBookGenerator.__init__` (module.py:31-50). The
environment variable `PERPLEXITY_API_KEY` is the `apiKeyEnv` argument
(`none` when unset); Python falsiness makes both an absent and an empty
value raise. The body performs no network interaction, which is why this
definition does not touch any transport input. -/
def mkClient (apiKeyEnv : Option String) (bookIdea : String) (dryRun : Bool) : Except PyErr Client :=
  match apiKeyEnv with
  | none => Except.error (PyErr.valueError "Please set the PERPLEXITY_API_KEY environment variable.")
  | some key =>
    if key = "" then
      Except.error (PyErr.valueError "Please set the PERPLEXITY_API_KEY environment variable.")
    else
      Except.ok
        ⟨key, "https://api.perplexity.ai/chat/completions", "Bearer " ++ key, bookIdea, dryRun, none⟩

/-- External inputs of one `generate_book_spec` call: the content of the
dry-run fixture file `tests/book_concept_test_1.json`, and the response
the network would deliver to the one `requests.post` of the live path. -/
structure TransportEnv where
  fixture : String
  resp : HttpResponse

/-- Shared tail of `generate_book_spec` (module.py:209-218): strip the
Markdown fences, `json.loads` the remainder, cache the namespace
conversion on the client, and return the parsed dict. `calls` is the
number of network calls the preceding transport step performed. -/
def finishSpec (c : Client) (calls : Nat) (response : String) : Except PyErr Json × Client × Nat :=
  match pyJsonLoads (stripMarkdown response.toList) with
  | none =>
    (Except.error (PyErr.jsonDecodeError (String.mk (stripMarkdown response.toList))), c, calls)
  | some v =>
    (Except.ok v,
      ⟨c.apiKey, c.baseUrl, c.authHeader, c.bookIdea, c.dryRun, some (dictToNamespace v)⟩, calls)

/-- Model of `generate_book_spec` (module.py:138-218): the dry-run path
substitutes the fixture document for the transport step and makes zero
network calls, the live path performs exactly one `requests.post` via
`send_api_payload` (with `debug` at its default `false`); both then run
the shared parsing tail. The `Except.ok` non-string case of the live
path is unreachable because the non-debug `send_api_payload` only
returns strings; Python would fail on `response.replace` there. -/
def generateBookSpec (c : Client) (env : TransportEnv) : Except PyErr Json × Client × Nat :=
  if c.dryRun then finishSpec c 0 env.fixture
  else
    match sendApiPayload false env.resp with
    | Except.error e => (Except.error e, c, 1)
    | Except.ok (Json.str s) => finishSpec c 1 s
    | Except.ok _ => (Except.error PyErr.typeError, c, 1)

/-- The eight required top-level keys of the book-concept schema
(module.py:157-195, mirrored by the test at tests/test_module.py:179). -/
def requiredKeys : List String :=
  ["expanded_title", "subtitle", "target_audience", "core_themes",
   "genre_classification", "word_count", "chapter_structure",
   "unique_selling_proposition"]

/-- Required keys absent from a parsed value (everything, when the value
is not an object). -/
def missingRequiredKeys (v : Json) : List String :=
  match v with
  | Json.obj kvs => requiredKeys.filter (fun k => (assocFind k kvs).isNone)
  | _ => requiredKeys

/-- The seven characters ``"```json"`` ; a fence-wrapped document whose
inner text ended with them would let the first `str.replace` pattern
match across the boundary, which is why the corresponding claim carries
a side condition excluding that ending. -/
def gJson : List Char := ['`', '`', '`', 'j', 's', 'o', 'n']

/-- Checks that a text does not begin with a Python whitespace
character; used to state that a run of whitespace is maximal, matching
the greedy `\s*` tail of the reasoning regex. -/
def headSpaceFree : List Char → Bool
  | [] => true
  | c :: _ => !pyIsSpace c

/-- Decides whether the reasoning regex matches anywhere in the text:
some position starts with `<think>` and is followed later by
`</think>`. -/
def hasThinkBlock : List Char → Bool
  | [] => false
  | c :: rest =>
    (thinkOpen.isPrefixOf (c :: rest) && containsSeq thinkClose ((c :: rest).drop 7)) ||
      hasThinkBlock rest

/-- A Boolean prefix implies the length inequality. -/
theorem prefixOf_length {p l : List Char} (h : p.isPrefixOf l = true) : p.length ≤ l.length := by
  induction p generalizing l with
  | nil => simp
  | cons a as ih =>
    cases l with
    | nil => simp [List.isPrefixOf] at h
    | cons b bs =>
      simp only [List.isPrefixOf, Bool.and_eq_true] at h
      have := ih h.2
      simp only [List.length_cons]
      omega

/-- A Boolean prefix is recovered by `take`. -/
theorem prefixOf_take_eq {p l : List Char} (h : p.isPrefixOf l = true) : l.take p.length = p := by
  induction p generalizing l with
  | nil => simp
  | cons a as ih =>
    cases l with
    | nil => simp [List.isPrefixOf] at h
    | cons b bs =>
      simp only [List.isPrefixOf, Bool.and_eq_true, beq_iff_eq] at h
      obtain ⟨hab, hrest⟩ := h
      subst hab
      simp [List.length_cons, List.take_succ_cons, ih hrest]

/-- Conversely, agreeing with `take` gives a Boolean prefix. -/
theorem takeEq_prefixOf {p l : List Char} (h : l.take p.length = p) : p.isPrefixOf l = true := by
  induction p generalizing l with
  | nil => simp [List.isPrefixOf]
  | cons a as ih =>
    cases l with
    | nil => simp at h
    | cons b bs =>
      simp only [List.length_cons, List.take_succ_cons, List.cons.injEq] at h
      obtain ⟨hb, ht⟩ := h
      subst hb
      simp [List.isPrefixOf, ih ht]

/-- A list is a Boolean prefix of itself followed by anything. -/
theorem prefixOf_append_self (p r : List Char) : p.isPrefixOf (p ++ r) = true :=
  takeEq_prefixOf (by rw [List.take_append_eq_append_take]; simp)

/-- A list is a Boolean prefix of itself. -/
theorem prefixOf_refl (p : List Char) : p.isPrefixOf p = true :=
  takeEq_prefixOf (List.take_length p)

/-- A prefix of a concatenation either fits inside the first part, or
straddles the border, in which case the first part is an initial
segment of the pattern and the second part starts with the rest of the
pattern. -/
theorem prefixOf_append_cases {p m s : List Char} (h : p.isPrefixOf (m ++ s) = true) :
    p.isPrefixOf m = true ∨
      (m.length < p.length ∧ m = p.take m.length ∧
        s.take (p.length - m.length) = p.drop m.length) := by
  have ht := prefixOf_take_eq h
  rw [List.take_append_eq_append_take] at ht
  by_cases hl : p.length ≤ m.length
  · left
    have hz : p.length - m.length = 0 := Nat.sub_eq_zero_of_le hl
    rw [hz, List.take_zero, List.append_nil] at ht
    exact takeEq_prefixOf ht
  · right
    push_neg at hl
    have hm : m.take p.length = m := List.take_of_length_le (Nat.le_of_lt hl)
    rw [hm] at ht
    refine ⟨hl, ?_, ?_⟩
    · have hx := List.take_left m (s.take (p.length - m.length))
      rw [ht] at hx
      exact hx.symm
    · have hx := List.drop_left m (s.take (p.length - m.length))
      rw [ht] at hx
      exact hx.symm

/-- If a pattern has no self-overlap (no strict rotation of it agrees
with itself), is not a prefix of a non-empty text `m`, then it is not a
prefix of `m` followed by the pattern itself: a match cannot straddle
the border into a fresh copy of the pattern. -/
theorem prefixOf_overlap_false {pat m t : List Char}
    (hover : ∀ k, k < pat.length → 0 < k → ¬ pat.drop k = pat.take (pat.length - k))
    (hm : m ≠ []) (hc : pat.isPrefixOf m = false) :
    pat.isPrefixOf (m ++ (pat ++ t)) = false := by
  by_contra hcon
  rw [Bool.not_eq_false] at hcon
  rcases prefixOf_append_cases hcon with h1 | ⟨hlt, _, hs⟩
  · rw [hc] at h1
    exact Bool.false_ne_true h1
  · rw [List.take_append_eq_append_take] at hs
    have hz : pat.length - m.length - pat.length = 0 := by omega
    rw [hz, List.take_zero, List.append_nil] at hs
    have hk0 : 0 < m.length := List.length_pos.mpr hm
    exact hover m.length hlt hk0 hs.symm

/-- The marker `<think>` has no self-overlap. -/
theorem thinkOpen_overlap :
    ∀ k, k < thinkOpen.length → 0 < k → ¬ thinkOpen.drop k = thinkOpen.take (thinkOpen.length - k) := by
  decide

/-- The marker `</think>` has no self-overlap. -/
theorem thinkClose_overlap :
    ∀ k, k < thinkClose.length → 0 < k →
      ¬ thinkClose.drop k = thinkClose.take (thinkClose.length - k) := by
  decide

/-- The fence pattern `"\n```"` has no self-overlap. -/
theorem mdFenceClose_overlap :
    ∀ k, k < mdFenceClose.length → 0 < k →
      ¬ mdFenceClose.drop k = mdFenceClose.take (mdFenceClose.length - k) := by
  decide

/-- Unfolding of `containsSeq` being false at a cons cell. -/
theorem containsSeq_cons_false {pat : List Char} {c : Char} {rest : List Char}
    (h : containsSeq pat (c :: rest) = false) :
    pat.isPrefixOf (c :: rest) = false ∧ containsSeq pat rest = false := by
  simpa [containsSeq] using h

/-- A found closing marker accounts for at least eight characters. -/
theorem findCloseSuffix_length : ∀ {l y : List Char}, findCloseSuffix l = some y → y.length + 8 ≤ l.length := by
  intro l
  induction l with
  | nil => intro y h; simp [findCloseSuffix] at h
  | cons c rest ih =>
    intro y h
    by_cases hp : thinkClose.isPrefixOf (c :: rest) = true
    · simp only [findCloseSuffix, hp, if_true, Option.some.injEq] at h
      have hlen : thinkClose.length ≤ (c :: rest).length := prefixOf_length hp
      subst h
      simp only [List.length_drop]
      simp only [thinkClose, List.length_cons] at hlen ⊢
      omega
    · have hp' : thinkClose.isPrefixOf (c :: rest) = false := by rwa [Bool.not_eq_true] at hp
      simp only [findCloseSuffix, hp', if_false] at h
      have := ih h
      simp only [List.length_cons]
      omega

/-- Without any closing marker in the text, the search fails. -/
theorem findCloseSuffix_none {l : List Char} (h : containsSeq thinkClose l = false) :
    findCloseSuffix l = none := by
  induction l with
  | nil => rfl
  | cons c rest ih =>
    obtain ⟨h1, h2⟩ := containsSeq_cons_false h
    simp [findCloseSuffix, h1, ih h2]

/-- When the text is some close-free segment followed by `</think>`,
the search finds exactly that first closing marker and returns what
follows it. -/
theorem findCloseSuffix_finds :
    ∀ (mid t : List Char), containsSeq thinkClose mid = false →
      findCloseSuffix (mid ++ (thinkClose ++ t)) = some t := by
  intro mid
  induction mid with
  | nil =>
    intro t _
    have he : findCloseSuffix ([] ++ (thinkClose ++ t)) =
        if thinkClose.isPrefixOf (thinkClose ++ t) then some ((thinkClose ++ t).drop 8)
        else findCloseSuffix (['/', 't', 'h', 'i', 'n', 'k', '>'] ++ t) := rfl
    rw [he, if_pos (prefixOf_append_self thinkClose t)]
    exact congrArg some (@List.drop_left' Char thinkClose t 8 rfl)
  | cons c mid ih =>
    intro t h
    obtain ⟨h1, h2⟩ := containsSeq_cons_false h
    have hno : thinkClose.isPrefixOf ((c :: mid) ++ (thinkClose ++ t)) = false :=
      prefixOf_overlap_false thinkClose_overlap (by simp) h1
    have he : findCloseSuffix ((c :: mid) ++ (thinkClose ++ t)) =
        if thinkClose.isPrefixOf ((c :: mid) ++ (thinkClose ++ t)) then
          some (((c :: mid) ++ (thinkClose ++ t)).drop 8)
        else findCloseSuffix (mid ++ (thinkClose ++ t)) := rfl
    rw [he, if_neg (fun hcon => Bool.false_ne_true (hno ▸ hcon))]
    exact ih t h2

/-- Dropping whitespace from a maximal whitespace run followed by text
that does not start with whitespace yields exactly that text. -/
theorem dropWhile_space_append {ws post : List Char} (hws : ws.all pyIsSpace = true)
    (hpost : headSpaceFree post = true) : (ws ++ post).dropWhile pyIsSpace = post := by
  rw [List.dropWhile_append_of_pos (by simpa using hws)]
  cases post with
  | nil => rfl
  | cons p r =>
    have hh : pyIsSpace p = false := by simpa [headSpaceFree] using hpost
    simp [List.dropWhile_cons, hh]

/-- `dropWhile` never lengthens a list. -/
theorem dropWhile_length_le (p : Char → Bool) (l : List Char) :
    (l.dropWhile p).length ≤ l.length := by
  induction l with
  | nil => simp
  | cons c rest ih =>
    rw [List.dropWhile_cons]
    split
    · simp only [List.length_cons]; omega
    · simp

/-- The fueled reasoning scan does not depend on the fuel once the fuel
covers the length of the text. -/
theorem subThinkF_congr :
    ∀ (f g : Nat) (l : List Char), l.length ≤ f → l.length ≤ g → subThinkF f l = subThinkF g l := by
  intro f
  induction f with
  | zero =>
    intro g l hf _
    have hl : l = [] := List.length_eq_zero.mp (Nat.le_zero.mp hf)
    subst hl
    simp [subThinkF]
  | succ f ih =>
    intro g l hf hg
    cases l with
    | nil => simp [subThinkF]
    | cons c rest =>
      cases g with
      | zero => simp at hg
      | succ g =>
        simp only [subThinkF]
        by_cases hp : thinkOpen.isPrefixOf (c :: rest) = true
        · simp only [hp, if_true]
          rcases hfc : findCloseSuffix ((c :: rest).drop 7) with _ | suffix
          · simp only [List.length_cons] at hf hg
            exact congrArg (c :: ·) (ih g rest (by omega) (by omega))
          · have hlen := findCloseSuffix_length hfc
            have hdw := dropWhile_length_le pyIsSpace suffix
            simp only [List.length_drop, List.length_cons] at hlen
            simp only [List.length_cons] at hf hg
            exact ih g (suffix.dropWhile pyIsSpace) (by omega) (by omega)
        · have hp' : thinkOpen.isPrefixOf (c :: rest) = false := by rwa [Bool.not_eq_true] at hp
          simp only [hp', if_false]
          simp only [List.length_cons] at hf hg
          exact congrArg (c :: ·) (ih g rest (by omega) (by omega))

/-- When the regex matches nowhere, the scan returns the text
unchanged, whatever the fuel. -/
theorem subThinkF_no_block :
    ∀ (fuel : Nat) (l : List Char), hasThinkBlock l = false → subThinkF fuel l = l := by
  intro fuel
  induction fuel with
  | zero => intro l _; cases l <;> simp [subThinkF]
  | succ fuel ih =>
    intro l h
    cases l with
    | nil => simp [subThinkF]
    | cons c rest =>
      simp only [hasThinkBlock, Bool.or_eq_false_iff] at h
      obtain ⟨hA, hB⟩ := h
      by_cases hp : thinkOpen.isPrefixOf (c :: rest) = true
      · rw [hp] at hA
        simp only [Bool.true_and] at hA
        simp only [List.drop_succ_cons] at hA
        have hfc := findCloseSuffix_none hA
        simp [subThinkF, hp, hfc, ih rest hB]
      · have hp' : thinkOpen.isPrefixOf (c :: rest) = false := by rwa [Bool.not_eq_true] at hp
        simp [subThinkF, hp', ih rest hB]

/-- Marker-free texts are returned unchanged by the sanitizing scan. -/
theorem subThink_no_block {l : List Char} (h : hasThinkBlock l = false) : subThink l = l :=
  subThinkF_no_block l.length l h

/-- Main behavior of the reasoning scan on a text decomposed as a
marker-free preamble, a first block `<think> mid </think>`, its maximal
trailing whitespace, and an arbitrary remainder: the preamble is kept,
the block and the whitespace are dropped, and the scan continues on the
remainder (thereby removing every later block as well). -/
theorem subThinkF_removes :
    ∀ (pre : List Char) (fuel : Nat) (mid ws post : List Char),
      (pre ++ (thinkOpen ++ (mid ++ (thinkClose ++ (ws ++ post))))).length ≤ fuel →
      containsSeq thinkOpen pre = false →
      containsSeq thinkClose mid = false →
      ws.all pyIsSpace = true →
      headSpaceFree post = true →
      subThinkF fuel (pre ++ (thinkOpen ++ (mid ++ (thinkClose ++ (ws ++ post))))) =
        pre ++ subThink post := by
  intro pre
  induction pre with
  | nil =>
    intro fuel mid ws post hfuel _ hmid hws hpost
    simp only [List.nil_append] at hfuel ⊢
    cases fuel with
    | zero =>
      exfalso
      simp [thinkOpen, List.length_append] at hfuel
    | succ fuel =>
      have he : subThinkF (fuel + 1) (thinkOpen ++ (mid ++ (thinkClose ++ (ws ++ post)))) =
          if thinkOpen.isPrefixOf (thinkOpen ++ (mid ++ (thinkClose ++ (ws ++ post)))) then
            match findCloseSuffix ((thinkOpen ++ (mid ++ (thinkClose ++ (ws ++ post)))).drop 7) with
            | some suffix => subThinkF fuel (suffix.dropWhile pyIsSpace)
            | none =>
              '<' :: subThinkF fuel (['t', 'h', 'i', 'n', 'k', '>'] ++ (mid ++ (thinkClose ++ (ws ++ post))))
          else
            '<' :: subThinkF fuel (['t', 'h', 'i', 'n', 'k', '>'] ++ (mid ++ (thinkClose ++ (ws ++ post)))) := rfl
      rw [he, if_pos (prefixOf_append_self thinkOpen (mid ++ (thinkClose ++ (ws ++ post))))]
      have hd : (thinkOpen ++ (mid ++ (thinkClose ++ (ws ++ post)))).drop 7 =
          mid ++ (thinkClose ++ (ws ++ post)) := @List.drop_left' Char thinkOpen _ 7 rfl
      rw [hd, findCloseSuffix_finds mid (ws ++ post) hmid]
      show subThinkF fuel ((ws ++ post).dropWhile pyIsSpace) = subThink post
      rw [dropWhile_space_append hws hpost]
      have hlen : post.length ≤ fuel := by
        simp [thinkOpen, thinkClose, List.length_append] at hfuel
        omega
      exact subThinkF_congr fuel post.length post hlen (Nat.le_refl _)
  | cons c pre ih =>
    intro fuel mid ws post hfuel hpre hmid hws hpost
    obtain ⟨h1, h2⟩ := containsSeq_cons_false hpre
    cases fuel with
    | zero =>
      exfalso
      simp [List.length_append] at hfuel
    | succ fuel =>
      have he : subThinkF (fuel + 1) ((c :: pre) ++ (thinkOpen ++ (mid ++ (thinkClose ++ (ws ++ post))))) =
          if thinkOpen.isPrefixOf ((c :: pre) ++ (thinkOpen ++ (mid ++ (thinkClose ++ (ws ++ post))))) then
            match findCloseSuffix (((c :: pre) ++ (thinkOpen ++ (mid ++ (thinkClose ++ (ws ++ post))))).drop 7) with
            | some suffix => subThinkF fuel (suffix.dropWhile pyIsSpace)
            | none => c :: subThinkF fuel (pre ++ (thinkOpen ++ (mid ++ (thinkClose ++ (ws ++ post)))))
          else c :: subThinkF fuel (pre ++ (thinkOpen ++ (mid ++ (thinkClose ++ (ws ++ post))))) := rfl
      have hno : thinkOpen.isPrefixOf ((c :: pre) ++ (thinkOpen ++ (mid ++ (thinkClose ++ (ws ++ post))))) = false :=
        prefixOf_overlap_false thinkOpen_overlap (by simp) h1
      rw [he, if_neg (fun hcon => Bool.false_ne_true (hno ▸ hcon))]
      have hfuel2 : (pre ++ (thinkOpen ++ (mid ++ (thinkClose ++ (ws ++ post))))).length ≤ fuel := by
        simp only [List.cons_append, List.length_cons] at hfuel
        omega
      rw [ih fuel mid ws post hfuel2 h2 hmid hws hpost]
      simp

/-- On a text without any occurrence of the pattern, `str.replace`
returns the text unchanged, whatever the fuel. -/
theorem replaceAllF_no_occurrence :
    ∀ (fuel : Nat) (pat l : List Char), containsSeq pat l = false → replaceAllF pat fuel l = l := by
  intro fuel
  induction fuel with
  | zero => intro pat l _; cases l <;> simp [replaceAllF]
  | succ fuel ih =>
    intro pat l h
    cases l with
    | nil => simp [replaceAllF]
    | cons c rest =>
      obtain ⟨h1, h2⟩ := containsSeq_cons_false h
      simp [replaceAllF, h1, ih pat rest h2]

/-- Removing the fence-close pattern from a text that consists of a
pattern-free part followed by exactly one copy of the pattern removes
that one trailing copy. -/
theorem replaceAllF_del_last :
    ∀ (J : List Char) (fuel : Nat), containsSeq mdFenceClose J = false → J.length + 1 ≤ fuel →
      replaceAllF mdFenceClose fuel (J ++ mdFenceClose) = J := by
  intro J
  induction J with
  | nil =>
    intro fuel _ hf
    cases fuel with
    | zero => exact absurd hf (by omega)
    | succ fuel =>
      have he : replaceAllF mdFenceClose (fuel + 1) ([] ++ mdFenceClose) =
          if mdFenceClose.isPrefixOf mdFenceClose then
            replaceAllF mdFenceClose fuel (mdFenceClose.drop mdFenceClose.length)
          else '\n' :: replaceAllF mdFenceClose fuel ['`', '`', '`'] := rfl
      rw [he, if_pos (prefixOf_refl mdFenceClose)]
      show replaceAllF mdFenceClose fuel [] = []
      simp [replaceAllF]
  | cons c J ih =>
    intro fuel h hf
    obtain ⟨h1, h2⟩ := containsSeq_cons_false h
    cases fuel with
    | zero => exact absurd hf (by omega)
    | succ fuel =>
      have hno : mdFenceClose.isPrefixOf ((c :: J) ++ (mdFenceClose ++ [])) = false :=
        prefixOf_overlap_false mdFenceClose_overlap (by simp) h1
      rw [List.append_nil] at hno
      have he : replaceAllF mdFenceClose (fuel + 1) ((c :: J) ++ mdFenceClose) =
          if mdFenceClose.isPrefixOf ((c :: J) ++ mdFenceClose) then
            replaceAllF mdFenceClose fuel (((c :: J) ++ mdFenceClose).drop mdFenceClose.length)
          else c :: replaceAllF mdFenceClose fuel (J ++ mdFenceClose) := rfl
      rw [he, if_neg (fun hcon => Bool.false_ne_true (hno ▸ hcon))]
      simp only [List.length_cons] at hf
      rw [ih fuel h2 (by omega)]

/-- The only way the fence-open pattern can straddle the border between
a text and an appended fence-close pattern is that the text ends in the
seven characters of `gJson`. -/
theorem fence_cross :
    ∀ k, k < 8 → 0 < k → mdFenceClose.take (8 - k) = mdFenceOpen.drop k → k = 7 := by
  decide

/-- Appending the fence-close pattern to a text that neither contains
the fence-open pattern nor ends in ``"```json"`` creates no occurrence
of the fence-open pattern. -/
theorem containsSeq_open_append :
    ∀ (J : List Char), containsSeq mdFenceOpen J = false → gJson.isSuffixOf J = false →
      containsSeq mdFenceOpen (J ++ mdFenceClose) = false := by
  intro J
  induction J with
  | nil => intro _ _; decide
  | cons c J ih =>
    intro h hs
    obtain ⟨h1, h2⟩ := containsSeq_cons_false h
    have hs2 : gJson.isSuffixOf J = false := by
      by_contra hb
      rw [Bool.not_eq_false] at hb
      have hup : gJson.isSuffixOf (c :: J) = true := by
        rw [List.isSuffixOf_iff_suffix] at hb ⊢
        exact hb.trans (List.suffix_cons c J)
      rw [hs] at hup
      exact Bool.false_ne_true hup
    have hne : (c :: J) ≠ gJson := by
      intro hEq
      have hup : gJson.isSuffixOf (c :: J) = true := by
        rw [hEq, List.isSuffixOf_iff_suffix]
      rw [hs] at hup
      exact Bool.false_ne_true hup
    have hhead : mdFenceOpen.isPrefixOf ((c :: J) ++ mdFenceClose) = false := by
      by_contra hb
      rw [Bool.not_eq_false] at hb
      rcases prefixOf_append_cases hb with hA | ⟨hlt, hmeq, hsplit⟩
      · rw [h1] at hA
        exact Bool.false_ne_true hA
      · have h8 : mdFenceOpen.length = 8 := rfl
        rw [h8] at hlt hsplit
        have hk7 : (c :: J).length = 7 := fence_cross (c :: J).length hlt (by simp) hsplit
        have hcg : (c :: J) = gJson := by
          rw [hmeq, hk7]
          rfl
        exact hne hcg
    have hhead2 : mdFenceOpen.isPrefixOf (c :: (J ++ mdFenceClose)) = false := hhead
    have hrest : containsSeq mdFenceOpen (J ++ mdFenceClose) = false := ih h2 hs2
    simp [containsSeq, List.append_eq, hhead2, hrest]

/-- Stripping the fences from a fence-wrapped document recovers the
document, provided the document itself is free of both fence patterns
and does not end in ``"```json"``. -/
theorem stripMarkdown_wrapped {J : List Char} (h1 : containsSeq mdFenceOpen J = false)
    (h2 : containsSeq mdFenceClose J = false) (h3 : gJson.isSuffixOf J = false) :
    stripMarkdown (mdFenceOpen ++ (J ++ mdFenceClose)) = J := by
  have s1 : pyReplaceDel mdFenceOpen (mdFenceOpen ++ (J ++ mdFenceClose)) = J ++ mdFenceClose := by
    show replaceAllF mdFenceOpen (mdFenceOpen ++ (J ++ mdFenceClose)).length
        (mdFenceOpen ++ (J ++ mdFenceClose)) = J ++ mdFenceClose
    have hlen : (mdFenceOpen ++ (J ++ mdFenceClose)).length = (J ++ mdFenceClose).length + 7 + 1 := by
      simp only [List.length_append, mdFenceOpen, mdFenceClose, List.length_cons, List.length_nil]
      omega
    rw [hlen]
    have he : replaceAllF mdFenceOpen ((J ++ mdFenceClose).length + 7 + 1)
        (mdFenceOpen ++ (J ++ mdFenceClose)) =
        if mdFenceOpen.isPrefixOf (mdFenceOpen ++ (J ++ mdFenceClose)) then
          replaceAllF mdFenceOpen ((J ++ mdFenceClose).length + 7)
            ((mdFenceOpen ++ (J ++ mdFenceClose)).drop mdFenceOpen.length)
        else
          '`' :: replaceAllF mdFenceOpen ((J ++ mdFenceClose).length + 7)
            (['`', '`', 'j', 's', 'o', 'n', '\n'] ++ (J ++ mdFenceClose)) := rfl
    rw [he, if_pos (prefixOf_append_self mdFenceOpen (J ++ mdFenceClose)),
      List.drop_left mdFenceOpen (J ++ mdFenceClose)]
    exact replaceAllF_no_occurrence _ _ _ (containsSeq_open_append J h1 h3)
  have s2 : pyReplaceDel mdFenceClose (J ++ mdFenceClose) = J := by
    show replaceAllF mdFenceClose (J ++ mdFenceClose).length (J ++ mdFenceClose) = J
    apply replaceAllF_del_last J _ h2
    have h4 : mdFenceClose.length = 4 := rfl
    simp only [List.length_append, h4]
    omega
  show pyReplaceDel mdFenceClose (pyReplaceDel mdFenceOpen (mdFenceOpen ++ (J ++ mdFenceClose))) = J
  rw [s1, s2]

/-- A document free of both fence patterns passes through the
fence-stripping step unchanged. -/
theorem stripMarkdown_id {J : List Char} (h1 : containsSeq mdFenceOpen J = false)
    (h2 : containsSeq mdFenceClose J = false) : stripMarkdown J = J := by
  show pyReplaceDel mdFenceClose (pyReplaceDel mdFenceOpen J) = J
  rw [show pyReplaceDel mdFenceOpen J = J from replaceAllF_no_occurrence _ _ _ h1]
  exact replaceAllF_no_occurrence _ _ _ h2

/-- The member conversion of `_dict_to_namespace` is a value-wise map. -/
theorem dtnFields_eq_map :
    ∀ kvs : List (String × Json), dtnFields kvs = kvs.map (fun kv => (kv.1, dictToNamespace kv.2)) := by
  intro kvs
  induction kvs with
  | nil => rfl
  | cons kv rest ih => cases kv; simp [dtnFields, ih]

/-- The list conversion of `_dict_to_namespace` is an element-wise map. -/
theorem dtnItems_eq_map : ∀ xs : List Json, dtnItems xs = xs.map dictToNamespace := by
  intro xs
  induction xs with
  | nil => rfl
  | cons x rest ih => simp [dtnItems, ih]

/-- Attribute lookup after conversion returns the conversion of the
value found by dict lookup before conversion. -/
theorem assocFind_dtnFields :
    ∀ (kvs : List (String × Json)) (k : String) (v : Json),
      assocFind k kvs = some v → assocFind k (dtnFields kvs) = some (dictToNamespace v) := by
  intro kvs
  induction kvs with
  | nil => intro k v h; simp [assocFind] at h
  | cons kv rest ih =>
    intro k v h
    cases kv with
    | mk k0 v0 =>
      by_cases hk : (k0 == k) = true
      · simp only [assocFind, hk, if_true, Option.some.injEq] at h
        subst h
        simp [dtnFields, assocFind, hk]
      · have hk' : (k0 == k) = false := by rwa [Bool.not_eq_true] at hk
        simp only [assocFind, hk', if_false] at h
        simp [dtnFields, assocFind, hk', ih k v h]

/-- String subscripts only fail with builtin lookup errors. -/
theorem pyIndexStr_err {v : Json} {k : String} {e : PyErr}
    (h : pyIndexStr v k = Except.error e) : isLookupError e = true := by
  cases v with
  | obj kvs =>
    simp only [pyIndexStr] at h
    rcases hF : assocFind k kvs with _ | x <;> simp [hF] at h
    subst h
    rfl
  | null => simp [pyIndexStr] at h; subst h; rfl
  | bool b => simp [pyIndexStr] at h; subst h; rfl
  | num n => simp [pyIndexStr] at h; subst h; rfl
  | fnum s => simp [pyIndexStr] at h; subst h; rfl
  | str s => simp [pyIndexStr] at h; subst h; rfl
  | arr xs => simp [pyIndexStr] at h; subst h; rfl

/-- Integer subscripts only fail with builtin lookup errors. -/
theorem pyIndexNat_err {v : Json} {i : Nat} {e : PyErr}
    (h : pyIndexNat v i = Except.error e) : isLookupError e = true := by
  cases v with
  | arr xs =>
    simp only [pyIndexNat] at h
    rcases hF : xs[i]? with _ | x <;> simp [hF] at h
    subst h
    rfl
  | obj kvs => simp [pyIndexNat] at h; subst h; rfl
  | str s =>
    simp only [pyIndexNat] at h
    rcases hF : s.data[i]? with _ | x <;> simp [hF] at h
    subst h
    rfl
  | null => simp [pyIndexNat] at h; subst h; rfl
  | bool b => simp [pyIndexNat] at h; subst h; rfl
  | num n => simp [pyIndexNat] at h; subst h; rfl
  | fnum s => simp [pyIndexNat] at h; subst h; rfl

/-- The chained content extraction only fails with builtin lookup
errors. -/
theorem extractContent_err {v : Json} {e : PyErr}
    (h : extractContent v = Except.error e) : isLookupError e = true := by
  rcases hA : pyIndexStr v "choices" with eA | a
  · simp only [extractContent, hA] at h
    cases h
    exact pyIndexStr_err hA
  · rcases hB : pyIndexNat a 0 with eB | b
    · simp only [extractContent, hA, hB] at h
      cases h
      exact pyIndexNat_err hB
    · rcases hC : pyIndexStr b "message" with eC | m
      · simp only [extractContent, hA, hB, hC] at h
        cases h
        exact pyIndexStr_err hC
      · simp only [extractContent, hA, hB, hC] at h
        exact pyIndexStr_err h

/-- Claim C4, counterexample: the claim quantifies over every non-2xx
status, but `raise_for_status()` only raises for 4xx and 5xx. A 304
response with a well-formed body makes `send_api_payload` return a
value instead of failing with a transport error. -/
theorem claim_C4_counterexample :
    (304 < 200 ∨ 300 ≤ 304) ∧
    sendApiPayload false
        ⟨304, "\x7b\"choices\":[\x7b\"message\":\x7b\"content\":\"X\"\x7d\x7d]\x7d"⟩ =
      Except.ok (Json.str "X") :=
  ⟨by decide, rfl⟩

/-- Claim C4, amended: for every call of `send_api_payload` whose single
POST receives a 4xx or 5xx status, the call fails with the
`HTTPError` of `raise_for_status` carrying the status code and body
(the TransportError of the specification), and `generate_book_spec`
propagates that error after exactly one network call, with no retry and
the client state unchanged. -/
theorem claim_C4_theorem :
    ∀ (r : HttpResponse) (debug : Bool) (c : Client) (env : TransportEnv),
      400 ≤ r.status → r.status < 600 → c.dryRun = false → env.resp = r →
      sendApiPayload debug r = Except.error (PyErr.httpError r.status r.body) ∧
      generateBookSpec c env = (Except.error (PyErr.httpError r.status r.body), c, 1) := by
  intro r debug c env h1 h2 hd hr
  have hraise : raiseForStatus r = Except.error (PyErr.httpError r.status r.body) := by
    unfold raiseForStatus
    rw [if_pos ⟨h1, h2⟩]
  constructor
  · simp [sendApiPayload, hraise]
  · subst hr
    simp [generateBookSpec, hd, sendApiPayload, hraise]

/-- Claim C4, witness at a concrete 500 response. -/
theorem claim_C4_witness :
    sendApiPayload false ⟨500, "oops"⟩ = Except.error (PyErr.httpError 500 "oops") ∧
    generateBookSpec ⟨"k", "u", "h", "idea", false, none⟩ ⟨"", ⟨500, "oops"⟩⟩ =
      (Except.error (PyErr.httpError 500 "oops"), ⟨"k", "u", "h", "idea", false, none⟩, 1) :=
  claim_C4_theorem ⟨500, "oops"⟩ false ⟨"k", "u", "h", "idea", false, none⟩ ⟨"", ⟨500, "oops"⟩⟩
    (by decide) (by decide) rfl rfl

/-- Claim C5, counterexample: on a 2xx response whose body lacks the
`choices[0].message.content` path, the code raises the builtin
`IndexError` of the chained subscripts, an unstructured lookup error
and not a `MalformedResponseError` of the specification taxonomy. -/
theorem claim_C5_counterexample :
    sendApiPayload false ⟨200, "\x7b\"choices\": []\x7d"⟩ = Except.error PyErr.indexError ∧
    isMalformedResponseError PyErr.indexError = false ∧
    isLookupError PyErr.indexError = true :=
  ⟨rfl, rfl, rfl⟩

/-- Claim C5, amended: for every 2xx response whose body parses as JSON
but lacks the `choices[0].message.content` path, `send_api_payload`
fails with the builtin lookup error (`KeyError`, `IndexError` or
`TypeError`) raised by the chained subscripts, rather than returning a
value; no `MalformedResponseError` class exists in the code. -/
theorem claim_C5_theorem :
    ∀ (r : HttpResponse) (v : Json) (e : PyErr),
      200 ≤ r.status → r.status < 300 →
      pyJsonLoads r.body.toList = some v →
      extractContent v = Except.error e →
      sendApiPayload false r = Except.error e ∧ isLookupError e = true ∧
        isMalformedResponseError e = false := by
  intro r v e h1 h2 hp hext
  have hraise : raiseForStatus r = Except.ok () := by
    unfold raiseForStatus
    rw [if_neg (by omega)]
  have hp2 : pyJsonLoads r.body.data = some v := hp
  have hjson : responseJson r = Except.ok v := by
    simp [responseJson, hp2]
  refine ⟨?_, extractContent_err hext, ?_⟩
  · simp [sendApiPayload, hraise, hjson, hext]
  · have hl := extractContent_err hext
    cases e <;> simp_all [isLookupError, isMalformedResponseError]

/-- Claim C5, witness at a concrete 200 response missing the `message`
key. -/
theorem claim_C5_witness :
    sendApiPayload false ⟨200, "\x7b\"choices\": [\x7b\x7d]\x7d"⟩ =
      Except.error (PyErr.keyError "message") ∧
    isLookupError (PyErr.keyError "message") = true := by
  have h := claim_C5_theorem ⟨200, "\x7b\"choices\": [\x7b\x7d]\x7d"⟩
    (Json.obj [("choices", Json.arr [Json.obj []])]) (PyErr.keyError "message")
    (by decide) (by decide) rfl rfl
  exact ⟨h.1, h.2.1⟩

/-- Claim C6: constructing the client with an empty or absent API key
raises the construction-time `ValueError` of module.py:35 (the
ConfigurationError of the specification taxonomy). `mkClient` takes no
transport input at all, which embeds the fact that `__init__` performs
no network call. -/
theorem claim_C6_theorem :
    ∀ (apiKeyEnv : Option String) (idea : String) (dryRun : Bool),
      apiKeyEnv = none ∨ apiKeyEnv = some "" →
      mkClient apiKeyEnv idea dryRun =
        Except.error
          (PyErr.valueError "Please set the PERPLEXITY_API_KEY environment variable.") := by
  intro apiKeyEnv idea dryRun h
  rcases h with rfl | rfl <;> simp [mkClient]

/-- Claim C6, witness for both the absent and the empty key. -/
theorem claim_C6_witness :
    mkClient none "idea" false =
      Except.error
        (PyErr.valueError "Please set the PERPLEXITY_API_KEY environment variable.") ∧
    mkClient (some "") "idea" true =
      Except.error
        (PyErr.valueError "Please set the PERPLEXITY_API_KEY environment variable.") :=
  ⟨claim_C6_theorem none "idea" false (Or.inl rfl),
   claim_C6_theorem (some "") "idea" true (Or.inr rfl)⟩

/-- Claim C9: `_dict_to_namespace` maps every dict to a namespace whose
attribute for each key is the recursive conversion of the value at that
key, maps every list to the element-wise recursively converted list
(preserving order and length), and returns every primitive unchanged. -/
theorem claim_C9_theorem :
    (∀ (kvs : List (String × Json)) (k : String) (v : Json),
        assocFind k kvs = some v →
        nsAttr (dictToNamespace (Json.obj kvs)) k = some (dictToNamespace v)) ∧
    (∀ xs : List Json, dictToNamespace (Json.arr xs) = PyVal.listv (xs.map dictToNamespace)) ∧
    (∀ xs : List Json, (xs.map dictToNamespace).length = xs.length) ∧
    (∀ (xs : List Json) (i : Nat), (xs.map dictToNamespace)[i]? = (xs[i]?).map dictToNamespace) ∧
    dictToNamespace Json.null = PyVal.prim Json.null ∧
    (∀ b, dictToNamespace (Json.bool b) = PyVal.prim (Json.bool b)) ∧
    (∀ n, dictToNamespace (Json.num n) = PyVal.prim (Json.num n)) ∧
    (∀ s, dictToNamespace (Json.fnum s) = PyVal.prim (Json.fnum s)) ∧
    (∀ s, dictToNamespace (Json.str s) = PyVal.prim (Json.str s)) := by
  refine ⟨?_, ?_, ?_, ?_, rfl, fun b => rfl, fun n => rfl, fun s => rfl, fun s => rfl⟩
  · intro kvs k v h
    show assocFind k (dtnFields kvs) = some (dictToNamespace v)
    exact assocFind_dtnFields kvs k v h
  · intro xs
    show PyVal.listv (dtnItems xs) = PyVal.listv (xs.map dictToNamespace)
    rw [dtnItems_eq_map]
  · intro xs
    simp
  · intro xs i
    simp

/-- Claim C9, witness at a concrete nested value. -/
theorem claim_C9_witness :
    nsAttr (dictToNamespace (Json.obj [("a", Json.num 1), ("b", Json.str "x")])) "b" =
      some (dictToNamespace (Json.str "x")) :=
  claim_C9_theorem.1 [("a", Json.num 1), ("b", Json.str "x")] "b" (Json.str "x") rfl

/-- Claim C1, counterexample: the fixture `"{}"` parses as JSON with all
eight required keys missing, yet `generate_book_spec` returns the
parsed object instead of failing with a schema-validation error: the
code performs no schema validation. -/
theorem claim_C1_counterexample :
    (generateBookSpec ⟨"key", "https://api.perplexity.ai/chat/completions", "Bearer key", "idea",
        true, none⟩ ⟨"\x7b\x7d", ⟨200, ""⟩⟩).1 = Except.ok (Json.obj []) ∧
    missingRequiredKeys (Json.obj []) = requiredKeys :=
  ⟨rfl, rfl⟩

/-- Claim C1, amended: `generate_book_spec` performs no schema
validation. If the fence-stripped text parses as JSON, the parsed value
is returned (and cached) even when required keys are missing; only a
JSON parse failure makes the call fail, with a `json.JSONDecodeError`
retaining the parsed text, not a `SchemaValidationError` naming missing
keys. -/
theorem claim_C1_theorem :
    (∀ (c : Client) (env : TransportEnv) (v : Json),
        c.dryRun = true →
        pyJsonLoads (stripMarkdown env.fixture.toList) = some v →
        missingRequiredKeys v ≠ [] →
        (generateBookSpec c env).1 = Except.ok v ∧
        (generateBookSpec c env).2.1.bookSpec = some (dictToNamespace v)) ∧
    (∀ (c : Client) (env : TransportEnv),
        c.dryRun = true →
        pyJsonLoads (stripMarkdown env.fixture.toList) = none →
        (generateBookSpec c env).1 =
          Except.error (PyErr.jsonDecodeError (String.mk (stripMarkdown env.fixture.toList))) ∧
        isSchemaValidationError
          (PyErr.jsonDecodeError (String.mk (stripMarkdown env.fixture.toList))) = false) := by
  constructor
  · intro c env v hd hp _
    have hp2 : pyJsonLoads (stripMarkdown env.fixture.data) = some v := hp
    constructor <;> simp [generateBookSpec, hd, finishSpec, hp2]
  · intro c env hd hp
    have hp2 : pyJsonLoads (stripMarkdown env.fixture.data) = none := hp
    constructor
    · simp [generateBookSpec, hd, finishSpec, hp2]
    · rfl

/-- Claim C1, witness: a one-key document is returned as parsed, and a
non-JSON text fails with a decode error carrying the text. -/
theorem claim_C1_witness :
    (generateBookSpec ⟨"key", "u", "h", "i", true, none⟩
        ⟨"\x7b\"subtitle\": 1\x7d", ⟨200, ""⟩⟩).1 =
      Except.ok (Json.obj [("subtitle", Json.num 1)]) ∧
    (generateBookSpec ⟨"key", "u", "h", "i", true, none⟩ ⟨"nope", ⟨200, ""⟩⟩).1 =
      Except.error (PyErr.jsonDecodeError "nope") := by
  constructor
  · exact (claim_C1_theorem.1 ⟨"key", "u", "h", "i", true, none⟩
      ⟨"\x7b\"subtitle\": 1\x7d", ⟨200, ""⟩⟩ (Json.obj [("subtitle", Json.num 1)])
      rfl rfl (by decide)).1
  · exact (claim_C1_theorem.2 ⟨"key", "u", "h", "i", true, none⟩ ⟨"nope", ⟨200, ""⟩⟩ rfl rfl).1

/-- Claim C2, counterexample: a document holding only one of the eight
required keys is returned as a partially populated concept rather than
being rejected, so a BookConcept can be partially populated. -/
theorem claim_C2_counterexample :
    (generateBookSpec ⟨"key", "u", "h", "idea", true, none⟩
        ⟨"\x7b\"expanded_title\": \"T\"\x7d", ⟨200, ""⟩⟩).1 =
      Except.ok (Json.obj [("expanded_title", Json.str "T")]) ∧
    missingRequiredKeys (Json.obj [("expanded_title", Json.str "T")]) =
      ["subtitle", "target_audience", "core_themes", "genre_classification", "word_count",
       "chapter_structure", "unique_selling_proposition"] :=
  ⟨rfl, rfl⟩

/-- Claim C2, amended: every `generate_book_spec` call either returns
the parsed JSON value and atomically caches its namespace conversion on
the client, or fails with the client state unchanged — but the returned
value carries no guarantee about the eight keys. -/
theorem claim_C2_theorem :
    ∀ (c : Client) (env : TransportEnv),
      (∃ v : Json, (generateBookSpec c env).1 = Except.ok v ∧
        (generateBookSpec c env).2.1.bookSpec = some (dictToNamespace v)) ∨
      (∃ e : PyErr, (generateBookSpec c env).1 = Except.error e ∧
        (generateBookSpec c env).2.1 = c) := by
  intro c env
  by_cases hd : c.dryRun = true
  · rcases hp : pyJsonLoads (stripMarkdown env.fixture.data) with _ | v
    · right
      refine ⟨PyErr.jsonDecodeError (String.mk (stripMarkdown env.fixture.data)), ?_, ?_⟩ <;>
        simp [generateBookSpec, hd, finishSpec, hp]
    · left
      refine ⟨v, ?_, ?_⟩ <;> simp [generateBookSpec, hd, finishSpec, hp]
  · have hd2 : c.dryRun = false := by rwa [Bool.not_eq_true] at hd
    rcases hs : sendApiPayload false env.resp with e | v
    · right
      refine ⟨e, ?_, ?_⟩ <;> simp [generateBookSpec, hd2, hs]
    · cases v with
      | str s =>
        rcases hp : pyJsonLoads (stripMarkdown s.data) with _ | w
        · right
          refine ⟨PyErr.jsonDecodeError (String.mk (stripMarkdown s.data)), ?_, ?_⟩ <;>
            simp [generateBookSpec, hd2, hs, finishSpec, hp]
        · left
          refine ⟨w, ?_, ?_⟩ <;> simp [generateBookSpec, hd2, hs, finishSpec, hp]
      | null => right; refine ⟨PyErr.typeError, ?_, ?_⟩ <;> simp [generateBookSpec, hd2, hs]
      | bool b => right; refine ⟨PyErr.typeError, ?_, ?_⟩ <;> simp [generateBookSpec, hd2, hs]
      | num n => right; refine ⟨PyErr.typeError, ?_, ?_⟩ <;> simp [generateBookSpec, hd2, hs]
      | fnum f => right; refine ⟨PyErr.typeError, ?_, ?_⟩ <;> simp [generateBookSpec, hd2, hs]
      | arr xs => right; refine ⟨PyErr.typeError, ?_, ?_⟩ <;> simp [generateBookSpec, hd2, hs]
      | obj kvs => right; refine ⟨PyErr.typeError, ?_, ?_⟩ <;> simp [generateBookSpec, hd2, hs]

/-- Claim C2, witness: the dichotomy instantiated at a concrete call. -/
theorem claim_C2_witness :
    (∃ v : Json,
      (generateBookSpec ⟨"key", "u", "h", "idea", true, none⟩ ⟨"\x7b\x7d ", ⟨200, ""⟩⟩).1 =
        Except.ok v ∧
      (generateBookSpec ⟨"key", "u", "h", "idea", true, none⟩
          ⟨"\x7b\x7d ", ⟨200, ""⟩⟩).2.1.bookSpec = some (dictToNamespace v)) ∨
    (∃ e : PyErr,
      (generateBookSpec ⟨"key", "u", "h", "idea", true, none⟩ ⟨"\x7b\x7d ", ⟨200, ""⟩⟩).1 =
        Except.error e ∧
      (generateBookSpec ⟨"key", "u", "h", "idea", true, none⟩ ⟨"\x7b\x7d ", ⟨200, ""⟩⟩).2.1 =
        ⟨"key", "u", "h", "idea", true, none⟩) :=
  claim_C2_theorem ⟨"key", "u", "h", "idea", true, none⟩ ⟨"\x7b\x7d ", ⟨200, ""⟩⟩

/-- Claim C3, counterexample: the Sanitizer with reasoning disabled
removes every reasoning block, not only the first: on a text with two
blocks the result is both stripped, not the first-only removal the
claim predicts. -/
theorem claim_C3_counterexample :
    sanitize false "<think>a</think>X<think>b</think>Y" = "XY" ∧
    "XY" ≠ "X<think>b</think>Y" :=
  ⟨by decide, by decide⟩

/-- Claim C3, amended: with the keep-reasoning flag true the text is
returned unchanged; with it false a text without any complete block is
returned unchanged, and every block bounded by `<think>` and the
earliest following `</think>`, together with the whitespace run after
the closing marker, is removed (the scan continuing on the remainder),
with matches spanning newlines. -/
theorem claim_C3_theorem :
    (∀ s : String, sanitize true s = s) ∧
    (∀ s : String, hasThinkBlock s.toList = false → sanitize false s = s) ∧
    (∀ pre mid ws post : List Char,
      containsSeq thinkOpen pre = false →
      containsSeq thinkClose mid = false →
      ws.all pyIsSpace = true →
      headSpaceFree post = true →
      sanitize false (String.mk (pre ++ (thinkOpen ++ (mid ++ (thinkClose ++ (ws ++ post)))))) =
        String.mk (pre ++ subThink post)) := by
  refine ⟨fun s => rfl, ?_, ?_⟩
  · intro s h
    show String.mk (subThink s.toList) = s
    rw [subThink_no_block h]
    exact rfl
  · intro pre mid ws post h1 h2 h3 h4
    exact congrArg String.mk
      (subThinkF_removes pre
        (pre ++ (thinkOpen ++ (mid ++ (thinkClose ++ (ws ++ post))))).length mid ws post
        (Nat.le_refl _) h1 h2 h3 h4)

/-- Claim C3, witness: a multi-line block with trailing whitespace is
removed as a unit, the preamble and remainder being kept. -/
theorem claim_C3_witness :
    sanitize false "A <think>x\ny</think>\n BZ" = "A BZ" := by
  have h := claim_C3_theorem.2.2 ("A ".toList) ("x\ny".toList) ("\n ".toList) ("BZ".toList)
    (by decide) (by decide) (by decide) (by decide)
  have e1 :
      String.mk ("A ".toList ++ (thinkOpen ++ ("x\ny".toList ++ (thinkClose ++
        ("\n ".toList ++ "BZ".toList))))) = "A <think>x\ny</think>\n BZ" := by decide
  have e2 : String.mk ("A ".toList ++ subThink ("BZ".toList)) = "A BZ" := by decide
  rw [e1, e2] at h
  exact h

/-- Claim C10, counterexample: a text can contain an opening marker
with no subsequent closing marker and still be changed, because an
earlier complete block is removed; only the unterminated block itself
is left untouched. -/
theorem claim_C10_counterexample :
    sanitize false "<think>a</think><think>b" = "<think>b" ∧
    "<think>b" ≠ "<think>a</think><think>b" :=
  ⟨by decide, by decide⟩

/-- Claim C10, amended: when no opening `<think>` marker is followed by
a later `</think>` marker anywhere in the text — in particular when the
only block is unterminated — the Sanitizer with reasoning disabled
returns the text unchanged. -/
theorem claim_C10_theorem :
    ∀ s : String, hasThinkBlock s.toList = false → sanitize false s = s := by
  intro s h
  show String.mk (subThink s.toList) = s
  rw [subThink_no_block h]
  exact rfl

/-- Claim C10, witness: a lone unterminated block is left untouched. -/
theorem claim_C10_witness :
    hasThinkBlock ("pre <think> unterminated".toList) = false ∧
    sanitize false "pre <think> unterminated" = "pre <think> unterminated" :=
  ⟨by decide, claim_C10_theorem "pre <think> unterminated" (by decide)⟩

/-- Claim C7: for a JSON document `J` (one that parses; the further
hypotheses — no embedded fence patterns, no trailing ``"```json"`` —
hold for every JSON text, since a valid document can contain neither a
raw backtick run outside strings nor a raw newline inside one),
`generate_book_spec` on the fence-wrapped document produces exactly the
same outcome as on the unwrapped document. -/
theorem claim_C7_theorem :
    ∀ (J : List Char) (c : Client) (env1 env2 : TransportEnv),
      c.dryRun = true →
      (pyJsonLoads J).isSome = true →
      containsSeq mdFenceOpen J = false →
      containsSeq mdFenceClose J = false →
      gJson.isSuffixOf J = false →
      env1.fixture = String.mk (mdFenceOpen ++ (J ++ mdFenceClose)) →
      env2.fixture = String.mk J →
      generateBookSpec c env1 = generateBookSpec c env2 := by
  intro J c env1 env2 hd _ h1 h2 h3 he1 he2
  have hw : stripMarkdown (String.mk (mdFenceOpen ++ (J ++ mdFenceClose))).data = J :=
    stripMarkdown_wrapped h1 h2 h3
  have hu : stripMarkdown (String.mk J).data = J := stripMarkdown_id h1 h2
  simp [generateBookSpec, hd, he1, he2, finishSpec, hw, hu]

/-- Claim C7, witness at the concrete document `{"a": 1}`. -/
theorem claim_C7_witness :
    generateBookSpec ⟨"k", "u", "h", "i", true, none⟩
        ⟨String.mk (mdFenceOpen ++ ("\x7b\"a\": 1\x7d".toList ++ mdFenceClose)), ⟨200, ""⟩⟩ =
      generateBookSpec ⟨"k", "u", "h", "i", true, none⟩ ⟨"\x7b\"a\": 1\x7d", ⟨200, ""⟩⟩ :=
  claim_C7_theorem ("\x7b\"a\": 1\x7d".toList) ⟨"k", "u", "h", "i", true, none⟩
    ⟨String.mk (mdFenceOpen ++ ("\x7b\"a\": 1\x7d".toList ++ mdFenceClose)), ⟨200, ""⟩⟩
    ⟨"\x7b\"a\": 1\x7d", ⟨200, ""⟩⟩
    rfl (by decide) (by decide) (by decide) (by decide) rfl rfl

/-- Claim C8: the dry-run path and the live path share the parsing tail
of `generate_book_spec` verbatim, so for the same post-transport text
`D` they produce the same result and the same cached state, the only
difference being zero network calls against one. -/
theorem claim_C8_theorem :
    ∀ (c1 c2 : Client) (env1 env2 : TransportEnv) (D : String),
      c1.dryRun = true → c2.dryRun = false →
      c1.bookSpec = c2.bookSpec →
      env1.fixture = D →
      sendApiPayload false env2.resp = Except.ok (Json.str D) →
      (generateBookSpec c1 env1).1 = (generateBookSpec c2 env2).1 ∧
      (generateBookSpec c1 env1).2.1.bookSpec = (generateBookSpec c2 env2).2.1.bookSpec ∧
      (generateBookSpec c1 env1).2.2 = 0 ∧ (generateBookSpec c2 env2).2.2 = 1 := by
  intro c1 c2 env1 env2 D hd1 hd2 hcache hf hsend
  subst hf
  rcases hp : pyJsonLoads (stripMarkdown env1.fixture.data) with _ | v <;>
    refine ⟨?_, ?_, ?_, ?_⟩ <;>
      simp [generateBookSpec, hd1, hd2, hsend, finishSpec, hp, hcache]

/-- Claim C8, witness: a live call whose response content is `"{}"`
matches the dry-run call on the fixture `"{}"`, with one network call
against zero. -/
theorem claim_C8_witness :
    (generateBookSpec ⟨"k", "u", "h", "i", true, none⟩ ⟨"\x7b\x7d", ⟨200, "junk"⟩⟩).1 =
      (generateBookSpec ⟨"k", "u", "h", "i", false, none⟩
        ⟨"other", ⟨200, "\x7b\"choices\":[\x7b\"message\":\x7b\"content\":\"\x7b\x7d\"\x7d\x7d]\x7d"⟩⟩).1 ∧
    (generateBookSpec ⟨"k", "u", "h", "i", true, none⟩ ⟨"\x7b\x7d", ⟨200, "junk"⟩⟩).2.1.bookSpec =
      (generateBookSpec ⟨"k", "u", "h", "i", false, none⟩
        ⟨"other", ⟨200, "\x7b\"choices\":[\x7b\"message\":\x7b\"content\":\"\x7b\x7d\"\x7d\x7d]\x7d"⟩⟩).2.1.bookSpec ∧
    (generateBookSpec ⟨"k", "u", "h", "i", true, none⟩ ⟨"\x7b\x7d", ⟨200, "junk"⟩⟩).2.2 = 0 ∧
    (generateBookSpec ⟨"k", "u", "h", "i", false, none⟩
        ⟨"other", ⟨200, "\x7b\"choices\":[\x7b\"message\":\x7b\"content\":\"\x7b\x7d\"\x7d\x7d]\x7d"⟩⟩).2.2 = 1 :=
  claim_C8_theorem ⟨"k", "u", "h", "i", true, none⟩ ⟨"k", "u", "h", "i", false, none⟩
    ⟨"\x7b\x7d", ⟨200, "junk"⟩⟩
    ⟨"other", ⟨200, "\x7b\"choices\":[\x7b\"message\":\x7b\"content\":\"\x7b\x7d\"\x7d\x7d]\x7d"⟩⟩
    "\x7b\x7d" rfl rfl rfl rfl rfl
